/-
Verification of the freva-stats-service / freva-storage-service core logic.

This file gives a shallow embedding of the service's core components:
the JSON-schema based payload validator (`validate_databrowser_stats`),
the date-range builder (`get_date_query`), the Mongo query builder of the
GET handlers (`query_databrowser`), the token service
(`create_oauth_token` / `validate_token` of both services), the record
store adapter (`insert_mongo_db_data`, the delete handler) and the CSV
streaming exporter (`databrowser_stats_csv_stream`), together with
theorems settling the specification claims about them.

External collaborators (the MongoDB driver, the dateutil parser, the JWT
library) are modelled by explicit reference semantics or by oracle
function parameters, as the specification treats them as opaque.
-/
import Mathlib

set_option autoImplicit false

/-! ## Python datetime model

A `datetime.datetime` value as used by the services: civil fields plus a
flag recording whether the value is timezone-aware UTC.  `astimezone`'s
numeric field shift is abstracted (no claim depends on it): the function
returns an aware UTC datetime denoting the same instant. -/

structure PyDateTime where
  year : Nat
  month : Nat
  day : Nat
  hour : Nat
  minute : Nat
  second : Nat
  micro : Nat
  utc : Bool
  deriving DecidableEq, Repr

/-- Zero-padded decimal rendering, as Python's datetime formatting does. -/
def padNum (width n : Nat) : String :=
  let s := toString n
  String.mk (List.replicate (width - s.length) '0') ++ s

/-- `datetime.isoformat(sep)`: `YYYY-MM-DD<sep>HH:MM:SS[.ffffff][+00:00]`. -/
def isoformatSep (sep : String) (d : PyDateTime) : String :=
  padNum 4 d.year ++ "-" ++ padNum 2 d.month ++ "-" ++ padNum 2 d.day ++ sep ++
    padNum 2 d.hour ++ ":" ++ padNum 2 d.minute ++ ":" ++ padNum 2 d.second ++
    (if d.micro ≠ 0 then "." ++ padNum 6 d.micro else "") ++
    (if d.utc then "+00:00" else "")

/-- `datetime.isoformat()` (the default separator is `T`). -/
def isoformat (d : PyDateTime) : String := isoformatSep "T" d

/-- Python `str(datetime)` is `isoformat(sep=' ')`. -/
def pyStrDatetime (d : PyDateTime) : String := isoformatSep " " d

/-- `datetime.astimezone(timezone.utc)`: an aware UTC datetime for the
same instant (the numeric field shift is abstracted away). -/
def astimezoneUtc (d : PyDateTime) : PyDateTime := { d with utc := true }

/-- The parser default `datetime(1, 1, 1, 0, 0, 0)` used for `before`. -/
def datetimeMin : PyDateTime := ⟨1, 1, 1, 0, 0, 0, 0, false⟩

/-- The parser default `datetime(9999, 12, 31, 23, 59, 59)` used for `after`. -/
def datetimeMax : PyDateTime := ⟨9999, 12, 31, 23, 59, 59, 0, false⟩

/-! ## JSON payload values

Request payloads reaching `validate_databrowser_stats` are JSON objects
whose top-level values are either scalars (dotted update keys) or flat
objects of scalars (`metadata` / `query`).  The schemas used by the
service are closed and typed with scalar leaf types only, so any more
deeply nested JSON is rejected by the real validator; such values are
omitted from the model. -/

inductive JVal where
  | jint (n : Int)
  | jstr (s : String)
  deriving DecidableEq, Repr

inductive Json where
  | jval (v : JVal)
  | jobj (fields : List (String × JVal))
  deriving DecidableEq, Repr

/-! ## Python dict operations on association lists

A Python `dict` is modelled as an insertion-ordered association list
with unique keys.  `dictInsert` is `d[k] = v`: it replaces the value of
the first matching key in place, otherwise appends. -/

def lookupKey {α : Type} (k : String) : List (String × α) → Option α
  | [] => none
  | (k1, v) :: rest => if k1 = k then some v else lookupKey k rest

def dictInsert {α : Type} (k : String) (v : α) : List (String × α) → List (String × α)
  | [] => [(k, v)]
  | (k1, w) :: rest =>
      if k1 = k then (k1, v) :: rest else (k1, w) :: dictInsert k v rest

def filterKey {α : Type} (k : String) (l : List (String × α)) : List (String × α) :=
  l.filter (fun kv => decide (kv.1 = k))

def keysOf {α : Type} (l : List (String × α)) : List String :=
  l.map Prod.fst

/-! ## The JSON-schema validator (`freva_storage_service.utils.validate_databrowser_stats`)

The schemas built by the source use the jsonschema fragment
`{"type": "object", "properties": ..., "required": ..., "additionalProperties": false}`
with scalar leaf schemas `{"type": "integer"}` / `{"type": "string"}`.
`matchTop`/`matchObjSchema` embed jsonschema's semantics for exactly this
fragment: every present key must be a declared property whose value
matches its sub-schema, and every required key must be present. -/

inductive LeafTy where
  | tint
  | tstr
  deriving DecidableEq, Repr

def matchLeaf : LeafTy → JVal → Bool
  | .tint, .jint _ => true
  | .tstr, .jstr _ => true
  | _, _ => false

structure ObjSchema where
  props : List (String × LeafTy)
  required : List String
  deriving Repr

def matchObjSchema (s : ObjSchema) : Json → Bool
  | .jval _ => false
  | .jobj fields =>
      fields.all (fun kv =>
        match lookupKey kv.1 s.props with
        | some t => matchLeaf t kv.2
        | none => false) &&
      s.required.all (fun r => (lookupKey r fields).isSome)

inductive PropSchema where
  | leaf (t : LeafTy)
  | objS (s : ObjSchema)

def matchProp : PropSchema → Json → Bool
  | .leaf t, .jval v => matchLeaf t v
  | .leaf _, .jobj _ => false
  | .objS s, j => matchObjSchema s j

structure TopSchema where
  props : List (String × PropSchema)
  required : List String

def matchTop (s : TopSchema) (data : List (String × Json)) : Bool :=
  data.all (fun kv =>
    match lookupKey kv.1 s.props with
    | some p => matchProp p kv.2
    | none => false) &&
  s.required.all (fun r => (lookupKey r data).isSome)

/-- The `metadata_schema` properties of the source. -/
def metadataProps : List (String × LeafTy) :=
  [("num_results", .tint), ("flavour", .tstr), ("uniq_key", .tstr),
   ("server_status", .tint), ("date", .tstr)]

/-- The `metadata_schema` required list of the source. -/
def metadataRequired : List String :=
  ["num_results", "flavour", "uniq_key", "server_status"]

/-- The full `metadata_schema` of the source. -/
def metadataSchemaFull : ObjSchema := ⟨metadataProps, metadataRequired⟩

/-- The `query_schema` of the source: one string property per facet of
the external facet vocabulary (`Translator("freva").valid_facets`). -/
def querySchema (facets : List String) : ObjSchema :=
  ⟨facets.map (fun k => (k, LeafTy.tstr)), []⟩

inductive Method where
  | post
  | put
  | del
  deriving DecidableEq, Repr

/-- The schema assembled by `validate_databrowser_stats` for a given
method and payload (the payload is consulted only for the
`"metadata" not in data` check of the source). -/
def databrowserStatsSchema (facets : List String) (method : Method)
    (data : List (String × Json)) : TopSchema :=
  match method with
  | .post =>
      { props := [("metadata", .objS metadataSchemaFull),
                  ("query", .objS (querySchema facets))],
        required := ["metadata", "query"] }
  | _ =>
      let mSchema :=
        if (lookupKey "metadata" data).isSome then metadataSchemaFull
        else { metadataSchemaFull with required := [] }
      { props := [("metadata", .objS mSchema),
                  ("query", .objS (querySchema facets))] ++
          metadataProps.map (fun kt => ("metadata." ++ kt.1, PropSchema.leaf kt.2)) ++
          facets.map (fun k => ("query." ++ k, PropSchema.leaf .tstr)),
        required := [] }

/-- `validate_databrowser_stats(data, method)` of the storage service:
`true` means validation passes, `false` means HTTP 422 is raised. -/
def validate_databrowser_stats (facets : List String)
    (data : List (String × Json)) (method : Method) : Bool :=
  matchTop (databrowserStatsSchema facets method data) data

/-! ## The date-range builder (`utils.get_date_query`)

Identical in both services.  The lenient dateutil parser is an external
collaborator, passed in as an oracle `parse : String → PyDateTime →
Option PyDateTime` (the second argument is the default used for missing
components; `none` models a `ParserError`, which the source logs and
drops). -/

def get_date_query (parse : String → PyDateTime → Option PyDateTime)
    (before after : Option String) : List (String × PyDateTime) :=
  let q0 : List (String × PyDateTime) := []
  let q1 :=
    match before with
    | none => q0
    | some ts =>
        match parse ts datetimeMin with
        | none => q0
        | some t => dictInsert "$lte" (astimezoneUtc t) q0
  match after with
  | none => q1
  | some ts =>
      match parse ts datetimeMax with
      | none => q1
      | some t => dictInsert "$gte" (astimezoneUtc t) q1

/-! ## The Mongo query builder (GET `query_databrowser`, both services)

The dict `mongo_query` built by the handler body.  Its values are the
filter predicates the source constructs. -/

inductive RVal where
  | rint (n : Int)
  | rstr (s : String)
  deriving DecidableEq, Repr

inductive MongoVal where
  /-- `{"$regex": v, "$options": opts}` -/
  | regex (v : RVal) (opts : String)
  /-- `{"$" + results_operator: n}` -/
  | cmp (op : String) (n : Int)
  /-- a bare integer: exact-match predicate -/
  | intVal (n : Int)
  /-- the date-range sub-document returned by `get_date_query` -/
  | dateRange (bounds : List (String × PyDateTime))
  deriving DecidableEq, Repr

/-- The optional query parameters of GET `query_databrowser`. -/
structure QueryParams where
  numResults : Option Int
  resultsOperator : String
  flavour : Option String
  uniqKey : Option String
  serverStatus : Option Int
  before : Option String
  after : Option String
  project : Option String
  product : Option String
  model : Option String
  institute : Option String
  experiment : Option String
  variableKey : Option String
  timeFrequency : Option String
  ensemble : Option String
  realm : Option String

/-- The `query_filters` dict of the source, in its insertion order. -/
def queryFiltersList (p : QueryParams) : List (String × Option String) :=
  [("project", p.project), ("product", p.product), ("model", p.model),
   ("variable", p.variableKey), ("institute", p.institute),
   ("experiment", p.experiment), ("time_frequency", p.timeFrequency),
   ("ensemble", p.ensemble), ("realm", p.realm)]

/-- The final `for key, value in query_filters.items()` loop of the source. -/
def applyFacetFilters (pairs : List (String × Option String))
    (q : List (String × MongoVal)) : List (String × MongoVal) :=
  pairs.foldl (fun acc kv =>
    match kv.2 with
    | some v => dictInsert ("query." ++ kv.1) (.regex (.rstr v) "ix") acc
    | none => acc) q

/-- The body of `query_databrowser` that assembles `mongo_query`
(identical in both services). -/
def buildMongoQuery (parse : String → PyDateTime → Option PyDateTime)
    (p : QueryParams) : List (String × MongoVal) :=
  let q0 : List (String × MongoVal) :=
    (match p.numResults with
     | some n => [("metadata.num_results", MongoVal.regex (.rint n) "ix")]
     | none => []) ++
    (match p.flavour with
     | some s => [("metadata.flavour", MongoVal.regex (.rstr s) "ix")]
     | none => []) ++
    (match p.uniqKey with
     | some s => [("metadata.uniq_key", MongoVal.regex (.rstr s) "ix")]
     | none => [])
  let q1 :=
    match p.numResults with
    | some n => dictInsert "metadata.num_results" (.cmp ("$" ++ p.resultsOperator) n) q0
    | none => q0
  let q2 :=
    match p.serverStatus with
    | some n => dictInsert "metadata.num_results" (.intVal n) q1
    | none => q1
  let dq := get_date_query parse p.before p.after
  let q3 := if dq.isEmpty then q2 else dictInsert "metadata.date" (.dateRange dq) q2
  applyFacetFilters (queryFiltersList p) q3

/-! ## The token service

A JWT as seen by `jose.jwt.decode` under the service's derived secret
key: whether the signature verifies under that key, whether the payload
parses as a claims object, and the `sub`/`exp` claims.  Both services
derive the same deterministic key from the two configured secrets, so a
token produced by `create_oauth_token` carries a valid signature. -/

structure JwtToken where
  sigOk : Bool
  wellFormed : Bool
  sub : Option String
  exp : Option Int
  deriving DecidableEq, Repr

/-- `jose.jwt.decode` at integer epoch time `now`: fails (raises a
`JWTError`) on a bad signature, an unparsable payload, or an `exp` claim
in the past; otherwise returns the claims. -/
def jwtDecode (t : JwtToken) (now : Int) : Option (Option String × Option Int) :=
  if !t.sigOk || !t.wellFormed then none
  else
    match t.exp with
    | some e => if e < now then none else some (t.sub, t.exp)
    | none => some (t.sub, t.exp)

/-- `validate_token` of the storage service: only `jwt.decode` is
attempted; no check of the `sub` claim. `true` means the request
proceeds, `false` means HTTP 401. -/
def storage_validate_token (t : JwtToken) (now : Int) : Bool :=
  (jwtDecode t now).isSome

/-- `validate_token` of the stats service: `jwt.decode`, then
`payload.get("sub")` must not be `None`. -/
def stats_validate_token (t : JwtToken) (now : Int) : Bool :=
  match jwtDecode t now with
  | some (some _, _) => true
  | some (none, _) => false
  | none => false

/-- Number of seconds in `timedelta(days=1)`. -/
def daySeconds : Int := 86400

/-- `create_oauth_token(username, expiry)` (identical in both services):
`nowTs` is `int(datetime.utcnow().timestamp())`.  Returns the encoded
token and the expiry epoch or `None`. -/
def create_oauth_token (nowTs : Int) (username : String) (expiry : Int) :
    JwtToken × Option Int :=
  if expiry > -1 then
    (⟨true, true, some username, some (nowTs + daySeconds)⟩, some (nowTs + daySeconds))
  else
    (⟨true, true, some username, none⟩, none)

/-! ## Stored documents and the record store adapter

A document of a `<project_name>.search_queries` collection: the
store-assigned identifier (rendered as its 24-hex-character string), the
insertion-ordered `metadata` sub-document and the `query` sub-document.
Metadata cells are the scalars admitted by the validator plus the
server-assigned `date` timestamp. -/

inductive MVal where
  | mint (n : Int)
  | mstr (s : String)
  | mdate (d : PyDateTime)
  deriving DecidableEq, Repr

def jvalToMVal : JVal → MVal
  | .jint n => .mint n
  | .jstr s => .mstr s

def jvalToStr : JVal → String
  | .jint n => toString n
  | .jstr s => s

structure StoredDoc where
  oid : String
  metadata : List (String × MVal)
  query : List (String × String)
  deriving DecidableEq, Repr

/-- Python's `str.startswith`, on the character lists of the strings. -/
def strStartsWith (s pre : String) : Bool :=
  pre.toList.isPrefixOf s.toList

/-- Python's `str[n:]` slicing, on the character list of the string. -/
def strDropChars (s : String) (n : Nat) : String :=
  String.mk (s.toList.drop n)

/-- Reference semantics of one MongoDB `$set` entry on a document:
a dotted `metadata.<k>` / `query.<k>` key updates the sub-document
field, a bare `metadata` / `query` key replaces the whole sub-document.
Scalar values for the sub-document keys and object values for dotted
keys are rejected by the validator before reaching the store and leave
the document unchanged here. -/
def applySetEntry (doc : StoredDoc) (key : String) (v : Json) : StoredDoc :=
  if key = "metadata" then
    match v with
    | .jobj fields =>
        { doc with metadata := fields.map (fun kv => (kv.1, jvalToMVal kv.2)) }
    | .jval _ => doc
  else if key = "query" then
    match v with
    | .jobj fields =>
        { doc with query := fields.map (fun kv => (kv.1, jvalToStr kv.2)) }
    | .jval _ => doc
  else if strStartsWith key "metadata." then
    match v with
    | .jval s =>
        { doc with metadata := dictInsert (strDropChars key 9) (jvalToMVal s) doc.metadata }
    | .jobj _ => doc
  else if strStartsWith key "query." then
    match v with
    | .jval s =>
        { doc with query := dictInsert (strDropChars key 6) (jvalToStr s) doc.query }
    | .jobj _ => doc
  else doc

def applySet (doc : StoredDoc) (data : List (String × Json)) : StoredDoc :=
  data.foldl (fun d kv => applySetEntry d kv.1 kv.2) doc

/-- `collection.update_one({"_id": oid}, {"$set": data})`: updates the
first document with the given identifier; the returned number is
`modified_count`, which is zero when no document matched or the `$set`
left the matched document unchanged. -/
def updateOne (coll : List StoredDoc) (oid : String) (data : List (String × Json)) :
    List StoredDoc × Nat :=
  match coll with
  | [] => ([], 0)
  | d :: rest =>
      if d.oid = oid then
        let d2 := applySet d data
        (d2 :: rest, if d2 = d then 0 else 1)
      else
        let r := updateOne rest oid data
        (d :: r.1, r.2)

/-- `collection.delete_one({"_id": oid})`: the returned number is
`deleted_count`. -/
def deleteOne (coll : List StoredDoc) (oid : String) : List StoredDoc × Nat :=
  match coll with
  | [] => ([], 0)
  | d :: rest =>
      if d.oid = oid then (rest, 1)
      else
        let r := deleteOne rest oid
        (d :: r.1, r.2)

def isHexChar (c : Char) : Bool :=
  c.isDigit || ('a' ≤ c && c ≤ 'f') || ('A' ≤ c && c ≤ 'F')

/-- `bson.objectid.ObjectId(key)` succeeds on a string exactly when it
is a 24-character hexadecimal string; otherwise `InvalidId` is raised. -/
def isValidObjectId (s : String) : Bool :=
  s.length = 24 && s.toList.all isHexChar

/-- Outcome of a mutating adapter call: an `HTTPException` status code
or the successful value. -/
inductive StoreOutcome (α : Type) where
  | httpError (code : Nat)
  | ok (value : α)
  deriving DecidableEq, Repr

/-- The `key is not None` (update) branch of the storage service's
`insert_mongo_db_data`: `ObjectId(key)` is parsed before the store is
touched (`InvalidId` becomes HTTP 500), and a zero `modified_count`
becomes HTTP 304.  Returns the resulting collection and the outcome. -/
def insert_mongo_db_data_update (coll : List StoredDoc) (key : String)
    (data : List (String × Json)) : List StoredDoc × StoreOutcome String :=
  if !isValidObjectId key then (coll, .httpError 500)
  else
    let r := updateOne coll key data
    if r.2 = 0 then (r.1, .httpError 304) else (r.1, .ok key)

/-- The `key is None` (insert) branch of the storage service's
`insert_mongo_db_data`: the store assigns `newId` and returns it. -/
def insert_mongo_db_data_insert (newId : String) (coll : List StoredDoc)
    (doc : StoredDoc) : List StoredDoc × StoreOutcome String :=
  (coll ++ [doc], .ok newId)

/-! ## The CSV streaming exporter (`freva_storage_service.response.databrowser_stats_csv_stream`) -/

/-- Python `str()` as applied to the cell values of a result row. -/
def pyStr : MVal → String
  | .mint n => toString n
  | .mstr s => s
  | .mdate d => pyStrDatetime d

/-- The `isinstance(result.get("date"), datetime)` conversion step of
the exporter: the `date` cell is replaced by its `isoformat()` text. -/
def convertDate (result : List (String × MVal)) : List (String × MVal) :=
  match lookupKey "date" result with
  | some (.mdate d) => dictInsert "date" (.mstr (isoformat d)) result
  | _ => result

/-- Python `{**a, **b}`: insert the entries of `b` into `a` in order. -/
def dictMerge {α : Type} (a b : List (String × α)) : List (String × α) :=
  b.foldl (fun acc kv => dictInsert kv.1 kv.2 acc) a

/-- The per-document result dict before facet merging:
`{**{"id": document["_id"]}, **document["metadata"].copy()}` followed by
the `date` conversion.  (`str(ObjectId)` renders as the hex string `oid`.) -/
def resultRow (doc : StoredDoc) : List (String × MVal) :=
  convertDate (dictMerge [("id", .mstr doc.oid)] doc.metadata)

/-- The `for facet in facet_keys: result[facet] = document["query"].get(facet, "")`
loop of the exporter. -/
def mergeFacets (facetKeys : List String) (q : List (String × String))
    (result : List (String × MVal)) : List (String × MVal) :=
  facetKeys.foldl (fun acc f => dictInsert f (.mstr ((lookupKey f q).getD "")) acc) result

/-- Python's `",".join(cells) + "\n"`. -/
def csvLine (cells : List String) : String :=
  String.intercalate "," cells ++ "\n"

/-- The generator loop of `databrowser_stats_csv_stream`: `header` is
the carried header tuple (empty until the first document is seen). -/
def csvLines (facetKeys : List String) (header : List String) :
    List StoredDoc → List String
  | [] => []
  | doc :: rest =>
      let result := resultRow doc
      let merged := mergeFacets facetKeys doc.query result
      let row := csvLine (merged.map (fun kv => pyStr kv.2))
      if header.isEmpty then
        let h := keysOf result ++ facetKeys
        csvLine h :: row :: csvLines facetKeys h rest
      else
        row :: csvLines facetKeys header rest

/-- `databrowser_stats_csv_stream(db_name, mongo_query)`, applied to the
lazily fetched sequence of matching documents (`facetKeys` is the
external facet vocabulary fetched once per call). -/
def databrowser_stats_csv_stream (facetKeys : List String)
    (docs : List StoredDoc) : List String :=
  csvLines facetKeys [] docs

/-! ## The HTTP handlers

The GET handler body shared by both services.  The store is an external
collaborator: `countDocs` models `count_documents` and `findDocs` the
cursor of `find`, both applied to the compiled filter.  `tokenValid`
gives the outcome of `validate_token` on the raw header string. -/

def queryDatabrowserCore (docNamespace placeholderToken : String)
    (tokenValid : String → Bool)
    (countDocs : List (String × MongoVal) → Nat)
    (findDocs : List (String × MongoVal) → List StoredDoc)
    (facetKeys : List String)
    (parse : String → PyDateTime → Option PyDateTime)
    (projectName accessToken : String) (p : QueryParams) :
    StoreOutcome (Nat × List String) :=
  if projectName ≠ docNamespace ∧ accessToken ≠ placeholderToken ∧ !tokenValid accessToken then
    .httpError 401
  else
    let q := buildMongoQuery parse p
    if countDocs q = 0 then .httpError 404
    else .ok (200, databrowser_stats_csv_stream facetKeys (findDocs q))

/-- GET `query_databrowser` of the storage service: token verification
runs only when `project_name != "example-project" and access_token != "my-token"`. -/
def storage_query_databrowser (tokenValid : String → Bool)
    (countDocs : List (String × MongoVal) → Nat)
    (findDocs : List (String × MongoVal) → List StoredDoc)
    (facetKeys : List String)
    (parse : String → PyDateTime → Option PyDateTime)
    (projectName accessToken : String) (p : QueryParams) :
    StoreOutcome (Nat × List String) :=
  queryDatabrowserCore "example-project" "my-token" tokenValid countDocs findDocs
    facetKeys parse projectName accessToken p

/-- GET `query_databrowser` of the stats service: token verification
runs only when `project_name != "docs" and access_token != "faketoken"`. -/
def stats_query_databrowser (tokenValid : String → Bool)
    (countDocs : List (String × MongoVal) → Nat)
    (findDocs : List (String × MongoVal) → List StoredDoc)
    (facetKeys : List String)
    (parse : String → PyDateTime → Option PyDateTime)
    (projectName accessToken : String) (p : QueryParams) :
    StoreOutcome (Nat × List String) :=
  queryDatabrowserCore "docs" "faketoken" tokenValid countDocs findDocs
    facetKeys parse projectName accessToken p

/-- POST `add_databrowser_stats` of the storage service.  `now` is
`datetime.datetime.now(tz=datetime.timezone.utc)` and `newId` the
identifier the store assigns on insertion. -/
def add_databrowser_stats (facets : List String) (now : PyDateTime)
    (newId : String) (coll : List StoredDoc) (projectName : String)
    (metadata : List (String × JVal)) (query : List (String × String)) :
    List StoredDoc × StoreOutcome String :=
  if projectName = "example-project" then (coll, .ok "")
  else
    let data : List (String × Json) :=
      [("metadata", .jobj metadata),
       ("query", .jobj (query.map (fun kv => (kv.1, JVal.jstr kv.2))))]
    if !validate_databrowser_stats facets data .post then (coll, .httpError 422)
    else
      let storedMd :=
        dictInsert "date" (MVal.mdate now)
          (metadata.map (fun kv => (kv.1, jvalToMVal kv.2)))
      insert_mongo_db_data_insert newId coll ⟨newId, storedMd, query⟩

/-- DELETE `delete_statistics_by_index` of the storage service. -/
def delete_statistics_by_index (tokenValid : String → Bool)
    (coll : List StoredDoc) (projectName statId accessToken : String) :
    List StoredDoc × StoreOutcome Unit :=
  if projectName = "example-project" ∧ accessToken = "my-token" then (coll, .ok ())
  else if !tokenValid accessToken then (coll, .httpError 401)
  else if !isValidObjectId statId then (coll, .httpError 500)
  else
    let r := deleteOne coll statId
    if r.2 = 0 then (r.1, .httpError 404) else (r.1, .ok ())

/-! ## Spec-side description of the exporter output (for claim C9)

These definitions follow the specification's words, to be compared with
the source-derived `databrowser_stats_csv_stream`. -/

/-- Spec: a metadata value, "timestamps rendered as ISO-8601 text". -/
def renderMetaValue : MVal → String
  | .mdate d => isoformat d
  | .mint n => toString n
  | .mstr s => s

/-- Spec: "a header line: `id`, then every key of that document's
metadata (insertion order), then every facet name". -/
def specCsvHeader (facetKeys : List String) (doc : StoredDoc) : String :=
  csvLine ("id" :: keysOf doc.metadata ++ facetKeys)

/-- Spec: "one line: its identifier, its metadata values (timestamps
rendered as ISO-8601 text), then for each facet name the corresponding
value from the document's query sub-structure or empty string if
absent". -/
def specCsvRow (facetKeys : List String) (doc : StoredDoc) : String :=
  csvLine (doc.oid :: doc.metadata.map (fun kv => renderMetaValue kv.2) ++
    facetKeys.map (fun f => (lookupKey f doc.query).getD ""))

/-- The shape guaranteed by the ingestion validator and the external
facet vocabulary for a document reaching the exporter: metadata keys are
unique and distinct from `id` and from every facet name, and only the
`date` field holds a timestamp. -/
def DocWF (facetKeys : List String) (doc : StoredDoc) : Prop :=
  (keysOf doc.metadata).Nodup ∧
  "id" ∉ keysOf doc.metadata ∧
  (∀ f ∈ facetKeys, f ≠ "id" ∧ f ∉ keysOf doc.metadata) ∧
  (∀ kv ∈ doc.metadata, ∀ d : PyDateTime, kv.2 = .mdate d → kv.1 = "date")

/-- Well-formedness of a matching sequence: a duplicate-free facet
vocabulary and validator-shaped documents. -/
def ExporterWF (facetKeys : List String) (docs : List StoredDoc) : Prop :=
  facetKeys.Nodup ∧ ∀ doc ∈ docs, DocWF facetKeys doc

/-! ## Spec-side token conditions and concrete sample inputs -/

/-- `exp` claim present and in the past (jose's expiry test). -/
def isExpired (t : JwtToken) (now : Int) : Bool :=
  match t.exp with
  | some e => decide (e < now)
  | none => false

/-- Spec: verification fails when "signature invalid, payload malformed,
subject claim absent, or token expired". -/
def specTokenFailCond (t : JwtToken) (now : Int) : Bool :=
  !t.sigOk || !t.wellFormed || t.sub.isNone || isExpired t now

/-- A query-parameter record with every optional filter absent. -/
def emptyParams : QueryParams :=
  ⟨none, "gte", none, none, none, none, none, none, none, none, none, none,
   none, none, none, none⟩

/-- Sample parameters supplying both `num_results` and `server_status`. -/
def c5Params : QueryParams :=
  { emptyParams with numResults := some 3, serverStatus := some 7 }

/-- A mixed update payload: a full (and fully valid) `metadata` object
together with a dotted `metadata.num_results` key. -/
def c2Payload : List (String × Json) :=
  [("metadata", .jobj [("num_results", .jint 5), ("flavour", .jstr "freva"),
     ("uniq_key", .jstr "file"), ("server_status", .jint 200)]),
   ("metadata.num_results", .jval (.jint 3))]

/-- A well-formed stored identifier (24 hexadecimal characters). -/
def sampleOid : String := "0123456789abcdef01234567"

/-- A validator-shaped stored document with a server-assigned date. -/
def sampleDoc : StoredDoc :=
  ⟨sampleOid,
   [("num_results", .mint 5), ("flavour", .mstr "freva"),
    ("uniq_key", .mstr "file"), ("server_status", .mint 200),
    ("date", .mdate ⟨2024, 1, 1, 0, 0, 0, 0, true⟩)],
   [("project", "cmip6")]⟩

/-- An update payload addressing the stored date by its dotted key. -/
def c3Payload : List (String × Json) :=
  [("metadata.date", .jval (.jstr "1999-01-01"))]

/-- A sample server-side creation timestamp. -/
def sampleNow : PyDateTime := ⟨2024, 5, 6, 7, 8, 9, 0, true⟩

/-- A creation metadata payload that also smuggles in a client-supplied
`date` string. -/
def c3Metadata : List (String × JVal) :=
  [("num_results", .jint 1), ("flavour", .jstr "freva"),
   ("uniq_key", .jstr "file"), ("server_status", .jint 0),
   ("date", .jstr "2000-01-01")]

/-! ## Dictionary lemmas -/

theorem lookupKey_dictInsert_self {α : Type} (k : String) (v : α)
    (l : List (String × α)) : lookupKey k (dictInsert k v l) = some v := by
  induction l with
  | nil => simp [dictInsert, lookupKey]
  | cons kv rest ih =>
      obtain ⟨k1, w⟩ := kv
      by_cases h : k1 = k
      · simp [dictInsert, h, lookupKey]
      · simp [dictInsert, h, lookupKey, ih]

theorem lookupKey_dictInsert_ne {α : Type} {k1 k : String} (h : k1 ≠ k)
    (v : α) (l : List (String × α)) :
    lookupKey k (dictInsert k1 v l) = lookupKey k l := by
  induction l with
  | nil => simp [dictInsert, lookupKey, h]
  | cons kv rest ih =>
      obtain ⟨k2, w⟩ := kv
      by_cases h2 : k2 = k1
      · subst h2
        simp [dictInsert, lookupKey, h]
      · by_cases h3 : k2 = k
        · simp [dictInsert, h2, lookupKey, h3, Ne.symm h]
        · simp [dictInsert, h2, lookupKey, h3, ih]

theorem filterKey_cons {α : Type} (k k1 : String) (v : α) (l : List (String × α)) :
    filterKey k ((k1, v) :: l) =
      if k1 = k then (k1, v) :: filterKey k l else filterKey k l := by
  by_cases h : k1 = k <;> simp [filterKey, List.filter_cons, h]

theorem filterKey_dictInsert_ne {α : Type} {k1 k : String} (h : k1 ≠ k)
    (v : α) (l : List (String × α)) :
    filterKey k (dictInsert k1 v l) = filterKey k l := by
  induction l with
  | nil => simp [dictInsert, filterKey, List.filter_cons, h]
  | cons kv rest ih =>
      obtain ⟨k2, w⟩ := kv
      by_cases h2 : k2 = k1
      · subst h2
        simp [dictInsert, filterKey_cons, h]
      · simp only [dictInsert, if_neg h2]
        rw [filterKey_cons, filterKey_cons]
        by_cases h3 : k2 = k
        · simp [h3, ih]
        · simp [h3, ih]

theorem filterKey_dictInsert_single {α : Type} {k : String} {l : List (String × α)}
    (h : (filterKey k l).length = 1) (v : α) :
    filterKey k (dictInsert k v l) = [(k, v)] := by
  induction l with
  | nil => simp [filterKey] at h
  | cons kv rest ih =>
      obtain ⟨k1, w⟩ := kv
      by_cases h1 : k1 = k
      · rw [filterKey_cons, if_pos h1] at h
        have hrest : filterKey k rest = [] := by
          rw [List.length_cons] at h
          have h0 : (filterKey k rest).length = 0 := by omega
          exact List.length_eq_zero.mp h0
        simp only [dictInsert, if_pos h1]
        rw [filterKey_cons, if_pos h1, hrest, h1]
      · rw [filterKey_cons, if_neg h1] at h
        simp only [dictInsert, if_neg h1]
        rw [filterKey_cons, if_neg h1]
        exact ih h

theorem lookupKey_eq_of_filterKey_single {α : Type} {k : String} {v : α}
    {l : List (String × α)} (h : filterKey k l = [(k, v)]) :
    lookupKey k l = some v := by
  induction l with
  | nil => simp [filterKey] at h
  | cons kv rest ih =>
      obtain ⟨k1, w⟩ := kv
      by_cases h1 : k1 = k
      · subst h1
        rw [filterKey_cons, if_pos rfl] at h
        simp only [List.cons.injEq, Prod.mk.injEq] at h
        simp [lookupKey, h.1.2]
      · rw [filterKey_cons, if_neg h1] at h
        simp [lookupKey, h1, ih h]

theorem dictInsert_append_of_not_mem {α : Type} {k : String}
    {l : List (String × α)} (h : k ∉ keysOf l) (v : α) :
    dictInsert k v l = l ++ [(k, v)] := by
  induction l with
  | nil => simp [dictInsert]
  | cons kv rest ih =>
      obtain ⟨k1, w⟩ := kv
      simp only [keysOf, List.map_cons, List.mem_cons] at h
      push_neg at h
      have h1 : ¬ k1 = k := fun hh => h.1 hh.symm
      simp [dictInsert, h1, ih (by simpa [keysOf] using h.2)]

theorem keysOf_dictInsert_of_mem {α : Type} {k : String} {l : List (String × α)}
    {w : α} (h : lookupKey k l = some w) (v : α) :
    keysOf (dictInsert k v l) = keysOf l := by
  induction l with
  | nil => simp [lookupKey] at h
  | cons kv rest ih =>
      obtain ⟨k1, u⟩ := kv
      by_cases h1 : k1 = k
      · simp [dictInsert, h1, keysOf]
      · rw [lookupKey, if_neg h1] at h
        have ih2 := ih h
        simp only [keysOf] at ih2 ⊢
        simp [dictInsert, h1, ih2]

/-! ## Store adapter lemmas -/

theorem updateOne_snd_zero {coll : List StoredDoc} {oid : String}
    {data : List (String × Json)} (h : (updateOne coll oid data).2 = 0) :
    (updateOne coll oid data).1 = coll := by
  induction coll with
  | nil => simp [updateOne]
  | cons d rest ih =>
      by_cases hd : d.oid = oid
      · simp only [updateOne, if_pos hd] at h ⊢
        by_cases he : applySet d data = d
        · simp [he]
        · simp [he] at h
      · simp only [updateOne, if_neg hd] at h ⊢
        simp [ih h]

theorem deleteOne_snd_zero {coll : List StoredDoc} {oid : String}
    (h : (deleteOne coll oid).2 = 0) : (deleteOne coll oid).1 = coll := by
  induction coll with
  | nil => simp [deleteOne]
  | cons d rest ih =>
      by_cases hd : d.oid = oid
      · simp only [deleteOne, if_pos hd] at h
        simp at h
      · simp only [deleteOne, if_neg hd] at h ⊢
        simp [ih h]

/-! ## Query builder lemmas -/

theorem applyFacetFilters_cons_some (name v : String)
    (rest : List (String × Option String)) (q : List (String × MongoVal)) :
    applyFacetFilters ((name, some v) :: rest) q =
      applyFacetFilters rest (dictInsert ("query." ++ name) (.regex (.rstr v) "ix") q) := rfl

theorem applyFacetFilters_cons_none (name : String)
    (rest : List (String × Option String)) (q : List (String × MongoVal)) :
    applyFacetFilters ((name, none) :: rest) q = applyFacetFilters rest q := rfl

theorem filterKey_applyFacetFilters {pairs : List (String × Option String)}
    {tgt : String} (h : ∀ kv ∈ pairs, ¬("query." ++ kv.1 = tgt))
    (q : List (String × MongoVal)) :
    filterKey tgt (applyFacetFilters pairs q) = filterKey tgt q := by
  induction pairs generalizing q with
  | nil => rfl
  | cons kv rest ih =>
      obtain ⟨name, ov⟩ := kv
      have hrest : ∀ kv ∈ rest, ¬("query." ++ kv.1 = tgt) :=
        fun kv hm => h kv (List.mem_cons_of_mem _ hm)
      cases ov with
      | none => rw [applyFacetFilters_cons_none]; exact ih hrest q
      | some v =>
          rw [applyFacetFilters_cons_some, ih hrest]
          exact filterKey_dictInsert_ne (h (name, some v) (by simp)) _ _

/-! ## Exporter lemmas -/

theorem lookupKey_of_mem_nodup {α : Type} {l : List (String × α)}
    {kv : String × α} (hm : kv ∈ l) (hnd : (keysOf l).Nodup) :
    lookupKey kv.1 l = some kv.2 := by
  induction l with
  | nil => simp at hm
  | cons hd rest ih =>
      obtain ⟨k1, v1⟩ := hd
      have hnd' : (k1 :: keysOf rest).Nodup := by
        simpa only [keysOf, List.map_cons] using hnd
      have hnd2 := List.nodup_cons.mp hnd'
      rcases List.mem_cons.mp hm with he | hm2
      · rw [he]
        simp [lookupKey]
      · have hne : ¬ k1 = kv.1 := by
          intro hh
          apply hnd2.1
          rw [hh]
          exact List.mem_map_of_mem Prod.fst hm2
        simp only [lookupKey, if_neg hne]
        exact ih hm2 hnd2.2

theorem dictMerge_append {α : Type} {b : List (String × α)}
    (hnd : (keysOf b).Nodup) (a : List (String × α))
    (hfresh : ∀ kv ∈ b, kv.1 ∉ keysOf a) :
    dictMerge a b = a ++ b := by
  induction b generalizing a with
  | nil => simp [dictMerge]
  | cons kv rest ih =>
      obtain ⟨k, v⟩ := kv
      have hnd' : (k :: keysOf rest).Nodup := by
        simpa only [keysOf, List.map_cons] using hnd
      have hnd2 := List.nodup_cons.mp hnd'
      simp only [dictMerge, List.foldl_cons]
      rw [dictInsert_append_of_not_mem (hfresh (k, v) (by simp)) v]
      have step := ih hnd2.2 (a ++ [(k, v)]) ?fresh
      · simp only [dictMerge] at step
        rw [step]
        simp
      case fresh =>
        intro kv2 hm2
        have h1 : kv2.1 ∉ keysOf a := hfresh kv2 (List.mem_cons_of_mem _ hm2)
        have h2 : kv2.1 ≠ k := by
          intro he
          apply hnd2.1
          rw [← he]
          exact List.mem_map_of_mem Prod.fst hm2
        simp [keysOf, List.map_append] at h1 ⊢
        exact ⟨h1, h2⟩

theorem mergeFacets_append {fk : List String} (hnd : fk.Nodup)
    (q : List (String × String)) (result : List (String × MVal))
    (hfresh : ∀ f ∈ fk, f ∉ keysOf result) :
    mergeFacets fk q result =
      result ++ fk.map (fun f => (f, MVal.mstr ((lookupKey f q).getD ""))) := by
  induction fk generalizing result with
  | nil => simp [mergeFacets]
  | cons f rest ih =>
      have hnd2 := List.nodup_cons.mp hnd
      simp only [mergeFacets, List.foldl_cons]
      rw [dictInsert_append_of_not_mem (hfresh f (by simp))]
      have step := ih hnd2.2
        (result ++ [(f, MVal.mstr ((lookupKey f q).getD ""))]) ?fresh
      · simp only [mergeFacets] at step
        rw [step]
        simp
      case fresh =>
        intro f2 hm2
        have h1 : f2 ∉ keysOf result := hfresh f2 (List.mem_cons_of_mem _ hm2)
        have h2 : f2 ≠ f := fun he => hnd2.1 (he ▸ hm2)
        simp [keysOf, List.map_append] at h1 ⊢
        exact ⟨h1, h2⟩

theorem keysOf_convertDate (r : List (String × MVal)) :
    keysOf (convertDate r) = keysOf r := by
  cases h : lookupKey "date" r with
  | none => simp [convertDate, h]
  | some v =>
      cases v with
      | mint n => simp [convertDate, h]
      | mstr s => simp [convertDate, h]
      | mdate d =>
          simp only [convertDate, h]
          exact keysOf_dictInsert_of_mem h _

theorem map_pyStr_eq_render_of_no_mdate {r : List (String × MVal)}
    (h : ∀ kv ∈ r, ∀ d : PyDateTime, kv.2 ≠ MVal.mdate d) :
    r.map (fun kv => pyStr kv.2) = r.map (fun kv => renderMetaValue kv.2) := by
  apply List.map_congr_left
  intro kv hm
  cases hv : kv.2 with
  | mint n => simp [pyStr, renderMetaValue]
  | mstr s => simp [pyStr, renderMetaValue]
  | mdate d => exact absurd hv (h kv hm d)

theorem no_mdate_of_date_not_mem {r : List (String × MVal)}
    (hdate : ∀ kv ∈ r, ∀ d : PyDateTime, kv.2 = MVal.mdate d → kv.1 = "date")
    (hmem : "date" ∉ keysOf r) :
    ∀ kv ∈ r, ∀ d : PyDateTime, kv.2 ≠ MVal.mdate d := by
  intro kv hm d hv
  apply hmem
  rw [← hdate kv hm d hv]
  exact List.mem_map_of_mem Prod.fst hm

theorem map_pyStr_dictInsert_date {r : List (String × MVal)} {d : PyDateTime}
    (hnd : (keysOf r).Nodup)
    (hdate : ∀ kv ∈ r, ∀ d2 : PyDateTime, kv.2 = MVal.mdate d2 → kv.1 = "date")
    (h : lookupKey "date" r = some (MVal.mdate d)) :
    (dictInsert "date" (MVal.mstr (isoformat d)) r).map (fun kv => pyStr kv.2)
      = r.map (fun kv => renderMetaValue kv.2) := by
  induction r with
  | nil => simp [lookupKey] at h
  | cons kv rest ih =>
      obtain ⟨k1, v1⟩ := kv
      have hnd' : (k1 :: keysOf rest).Nodup := by
        simpa only [keysOf, List.map_cons] using hnd
      have hnd2 := List.nodup_cons.mp hnd'
      have hdate2 : ∀ kv ∈ rest, ∀ d2 : PyDateTime, kv.2 = MVal.mdate d2 → kv.1 = "date" :=
        fun kv hm => hdate kv (List.mem_cons_of_mem _ hm)
      by_cases h1 : k1 = "date"
      · rw [lookupKey, if_pos h1] at h
        have hv : v1 = MVal.mdate d := by
          simpa using h
        simp only [dictInsert, if_pos h1, List.map_cons, hv, pyStr, renderMetaValue]
        congr 1
        apply map_pyStr_eq_render_of_no_mdate
        exact no_mdate_of_date_not_mem hdate2 (h1 ▸ hnd2.1)
      · rw [lookupKey, if_neg h1] at h
        simp only [dictInsert, if_neg h1, List.map_cons]
        congr 1
        · have hv1 : ∀ d2 : PyDateTime, v1 ≠ MVal.mdate d2 := by
            intro d2 hc
            exact h1 (hdate (k1, v1) (by simp) d2 hc)
          cases v1 with
          | mint n => simp [pyStr, renderMetaValue]
          | mstr s => simp [pyStr, renderMetaValue]
          | mdate d2 => exact absurd rfl (hv1 d2)
        · exact ih hnd2.2 hdate2 h

theorem map_pyStr_convertDate {r : List (String × MVal)}
    (hnd : (keysOf r).Nodup)
    (hdate : ∀ kv ∈ r, ∀ d : PyDateTime, kv.2 = MVal.mdate d → kv.1 = "date") :
    (convertDate r).map (fun kv => pyStr kv.2)
      = r.map (fun kv => renderMetaValue kv.2) := by
  have hscalar : ∀ v, lookupKey "date" r = some v →
      (∀ d : PyDateTime, v ≠ MVal.mdate d) →
      ∀ kv ∈ r, ∀ d : PyDateTime, kv.2 ≠ MVal.mdate d := by
    intro v hl hv kv hm d hc
    have hk : kv.1 = "date" := hdate kv hm d hc
    have : lookupKey "date" r = some kv.2 := by
      rw [← hk]
      exact lookupKey_of_mem_nodup hm hnd
    rw [hl] at this
    have hveq : v = kv.2 := by simpa using this
    exact hv d (by rw [hveq, hc])
  cases h : lookupKey "date" r with
  | none =>
      simp only [convertDate, h]
      apply map_pyStr_eq_render_of_no_mdate
      intro kv hm d hc
      have hk : kv.1 = "date" := hdate kv hm d hc
      have : lookupKey "date" r = some kv.2 := by
        rw [← hk]
        exact lookupKey_of_mem_nodup hm hnd
      rw [h] at this
      exact Option.noConfusion this
  | some v =>
      cases v with
      | mint n =>
          simp only [convertDate, h]
          exact map_pyStr_eq_render_of_no_mdate
            (hscalar _ h (fun d hc => MVal.noConfusion hc))
      | mstr s =>
          simp only [convertDate, h]
          exact map_pyStr_eq_render_of_no_mdate
            (hscalar _ h (fun d hc => MVal.noConfusion hc))
      | mdate d =>
          simp only [convertDate, h]
          exact map_pyStr_dictInsert_date hnd hdate h

theorem resultRow_eq_convert {doc : StoredDoc}
    (hnd : (keysOf doc.metadata).Nodup) (hid : "id" ∉ keysOf doc.metadata) :
    resultRow doc = convertDate (("id", MVal.mstr doc.oid) :: doc.metadata) := by
  have hm : dictMerge [("id", MVal.mstr doc.oid)] doc.metadata
      = [("id", MVal.mstr doc.oid)] ++ doc.metadata := by
    apply dictMerge_append hnd
    intro kv hm
    simp only [keysOf, List.map_cons, List.map_nil, List.mem_singleton]
    intro he
    exact hid (he ▸ List.mem_map_of_mem Prod.fst hm)
  rw [resultRow, hm]
  rfl

theorem keysOf_resultRow {doc : StoredDoc}
    (hnd : (keysOf doc.metadata).Nodup) (hid : "id" ∉ keysOf doc.metadata) :
    keysOf (resultRow doc) = "id" :: keysOf doc.metadata := by
  rw [resultRow_eq_convert hnd hid, keysOf_convertDate]
  simp [keysOf]

theorem csvRow_eq_spec {fk : List String} {doc : StoredDoc}
    (hfk : fk.Nodup) (hwf : DocWF fk doc) :
    csvLine ((mergeFacets fk doc.query (resultRow doc)).map (fun kv => pyStr kv.2))
      = specCsvRow fk doc := by
  obtain ⟨hnd, hid, hfacets, hdate⟩ := hwf
  rw [mergeFacets_append hfk doc.query (resultRow doc) ?fresh]
  case fresh =>
    intro f hf
    rw [keysOf_resultRow hnd hid]
    rcases hfacets f hf with ⟨h1, h2⟩
    simp [h1, h2]
  rw [List.map_append]
  have hcells :
      (fk.map (fun f => (f, MVal.mstr ((lookupKey f doc.query).getD "")))).map
        (fun kv => pyStr kv.2)
      = fk.map (fun f => (lookupKey f doc.query).getD "") := by
    rw [List.map_map]
    simp [pyStr, Function.comp]
  rw [hcells, resultRow_eq_convert hnd hid]
  have hnd' : (keysOf (("id", MVal.mstr doc.oid) :: doc.metadata)).Nodup := by
    simp only [keysOf, List.map_cons]
    exact List.nodup_cons.mpr ⟨hid, hnd⟩
  have hdate' : ∀ kv ∈ ("id", MVal.mstr doc.oid) :: doc.metadata,
      ∀ d : PyDateTime, kv.2 = MVal.mdate d → kv.1 = "date" := by
    intro kv hm d hv
    rcases List.mem_cons.mp hm with he | hm2
    · rw [he] at hv
      exact absurd hv (by simp)
    · exact hdate kv hm2 d hv
  rw [map_pyStr_convertDate hnd' hdate']
  simp [specCsvRow, renderMetaValue]

theorem csvHeader_eq_spec {fk : List String} {doc : StoredDoc}
    (hnd : (keysOf doc.metadata).Nodup) (hid : "id" ∉ keysOf doc.metadata) :
    csvLine (keysOf (resultRow doc) ++ fk) = specCsvHeader fk doc := by
  rw [keysOf_resultRow hnd hid]
  simp [specCsvHeader]

theorem csvLines_eq_rows {fk : List String} (hfk : fk.Nodup) :
    ∀ {docs : List StoredDoc}, (∀ doc ∈ docs, DocWF fk doc) →
    ∀ {h : List String}, h.isEmpty = false →
    csvLines fk h docs = docs.map (fun doc => specCsvRow fk doc) := by
  intro docs
  induction docs with
  | nil =>
      intro _ h _
      simp [csvLines]
  | cons doc rest ih =>
      intro hwf h hne
      have hcond : ¬(h.isEmpty = true) := by simp [hne]
      simp only [csvLines]
      rw [if_neg hcond, csvRow_eq_spec hfk (hwf doc (by simp)), List.map_cons]
      congr 1
      exact ih (fun d hm => hwf d (List.mem_cons_of_mem _ hm)) hne

/-! ## Claim theorems -/

/-- C10: the date-range builder maps a parsable `before` to an `$lte`
bound and a parsable `after` to a `$gte` bound, both normalized to UTC
(`astimezoneUtc`); an unparsable string contributes no bound and does
not fail the query, so the result carries a bound exactly for each
supplied parsable input. -/
theorem c10_date_range_builder
    (parse : String → PyDateTime → Option PyDateTime)
    (before after : Option String) :
    get_date_query parse before after =
      ((before.bind (fun ts => parse ts datetimeMin)).map
         (fun t => ("$lte", astimezoneUtc t))).toList ++
      ((after.bind (fun ts => parse ts datetimeMax)).map
         (fun t => ("$gte", astimezoneUtc t))).toList ∧
    ((get_date_query parse before after).all (fun kv => kv.2.utc)) = true := by
  have hne : ("$lte" : String) ≠ "$gte" := by decide
  unfold get_date_query
  rcases before with _ | ts1
  · rcases after with _ | ts2
    · simp
    · cases hp : parse ts2 datetimeMax with
      | none => simp [hp]
      | some t => simp [hp, dictInsert, astimezoneUtc]
  · rcases after with _ | ts2
    · cases hp : parse ts1 datetimeMin with
      | none => simp [hp]
      | some t => simp [hp, dictInsert, astimezoneUtc]
    · cases hp1 : parse ts1 datetimeMin with
      | none =>
          cases hp2 : parse ts2 datetimeMax with
          | none => simp [hp1, hp2]
          | some t2 => simp [hp1, hp2, dictInsert, astimezoneUtc]
      | some t1 =>
          cases hp2 : parse ts2 datetimeMax with
          | none => simp [hp1, hp2, dictInsert, astimezoneUtc]
          | some t2 => simp [hp1, hp2, dictInsert, hne, astimezoneUtc]

/-- C4 counterexample: a token whose signature verifies, whose payload
is well formed, which never expires, but which carries no subject claim:
the specification requires verification to fail (`specTokenFailCond`),
yet the storage service's `validate_token` accepts it. -/
theorem c4_counterexample :
    storage_validate_token ⟨true, true, none, none⟩ 0 = true ∧
    specTokenFailCond ⟨true, true, none, none⟩ 0 = true := by
  constructor
  · rfl
  · rfl

/-- C4 (amended): the stats service's `validate_token` fails exactly on
an invalid signature, a malformed payload, an absent subject claim, or
an expired token; the storage service's `validate_token` omits the
subject check and fails exactly on an invalid signature, a malformed
payload, or an expired token. -/
theorem c4_token_verification (t : JwtToken) (now : Int) :
    stats_validate_token t now = !(specTokenFailCond t now) ∧
    storage_validate_token t now = !(!t.sigOk || !t.wellFormed || isExpired t now) := by
  rcases t with ⟨sg, wf, sub, exp⟩
  cases sg <;> cases wf <;> cases sub <;> cases exp <;>
    simp only [stats_validate_token, storage_validate_token, jwtDecode,
      specTokenFailCond, isExpired] <;>
    (try simp) <;>
    (try (rename_i e
          by_cases he : e < now <;> simp [he]))

/-- C8: token issuance treats `expires_in` only as a sign discriminator:
a negative value yields a token without an expiry claim and a null
returned expiry, which the service's verifier accepts at every later
time; a non-negative value (of any magnitude) sets the expiry claim to
exactly now plus one fixed 1-day window, after which verification
fails. -/
theorem c8_token_expiry_sign (nowTs : Int) (username : String) (expiry : Int) :
    (expiry < 0 →
      (create_oauth_token nowTs username expiry).2 = none ∧
      (create_oauth_token nowTs username expiry).1.exp = none ∧
      ∀ t : Int, stats_validate_token (create_oauth_token nowTs username expiry).1 t = true) ∧
    (0 ≤ expiry →
      (create_oauth_token nowTs username expiry).2 = some (nowTs + daySeconds) ∧
      (create_oauth_token nowTs username expiry).1.exp = some (nowTs + daySeconds) ∧
      ∀ t : Int, nowTs + daySeconds < t →
        stats_validate_token (create_oauth_token nowTs username expiry).1 t = false) := by
  constructor
  · intro hneg
    have hcond : ¬(expiry > -1) := by omega
    simp only [create_oauth_token, if_neg hcond]
    refine ⟨trivial, trivial, ?_⟩
    intro t
    rfl
  · intro hpos
    have hcond : expiry > -1 := by omega
    simp only [create_oauth_token, if_pos hcond]
    refine ⟨trivial, trivial, ?_⟩
    intro t ht
    simp [stats_validate_token, jwtDecode, ht]

/-- C8 witness: at concrete inputs, a negative hint yields a null expiry
and a token accepted far in the future, while a hint of 5 days still
yields exactly the 1-day expiry. -/
theorem c8_token_expiry_sign_witness :
    (create_oauth_token 0 "stats" (-1)).2 = none ∧
    stats_validate_token (create_oauth_token 0 "stats" (-1)).1 1000000000 = true ∧
    (create_oauth_token 0 "stats" 5).2 = some (0 + daySeconds) ∧
    stats_validate_token (create_oauth_token 0 "stats" 5).1 (0 + daySeconds + 1) = false := by
  refine ⟨?_, ?_, ?_, ?_⟩
  · exact ((c8_token_expiry_sign 0 "stats" (-1)).1 (by decide)).1
  · exact ((c8_token_expiry_sign 0 "stats" (-1)).1 (by decide)).2.2 1000000000
  · exact ((c8_token_expiry_sign 0 "stats" 5).2 (by decide)).1
  · exact ((c8_token_expiry_sign 0 "stats" 5).2 (by decide)).2.2
      (0 + daySeconds + 1) (by decide)

/-- Reaching the query phase when the documentation shortcut applies:
if the namespace is the documentation namespace or the header carries
the placeholder literal, the GET handler result is the query phase,
independent of token validity. -/
theorem queryDatabrowserCore_skip (ns ph : String) (tv : String → Bool)
    (cd : List (String × MongoVal) → Nat)
    (fd : List (String × MongoVal) → List StoredDoc)
    (fk : List String) (parse : String → PyDateTime → Option PyDateTime)
    (pn tok : String) (p : QueryParams) (h : tok = ph ∨ pn = ns) :
    queryDatabrowserCore ns ph tv cd fd fk parse pn tok p =
      (if cd (buildMongoQuery parse p) = 0 then .httpError 404
       else .ok (200, databrowser_stats_csv_stream fk (fd (buildMongoQuery parse p)))) := by
  unfold queryDatabrowserCore
  rw [if_neg]
  intro hc
  rcases h with he | he
  · exact hc.2.1 he
  · exact hc.1 he

/-- C1: on a GET read request, when the access-token header equals the
documentation placeholder (`"my-token"` in the storage service,
`"faketoken"` in the stats service) or the namespace equals the
documentation namespace, token verification is skipped entirely (the
result does not depend on the token-validity oracle), the handler never
fails with 401, and it proceeds to count and run the real store query. -/
theorem c1_placeholder_skips_verification
    (tv1 tv2 : String → Bool)
    (cd : List (String × MongoVal) → Nat)
    (fd : List (String × MongoVal) → List StoredDoc)
    (fk : List String) (parse : String → PyDateTime → Option PyDateTime)
    (pn tok : String) (p : QueryParams) :
    ((tok = "my-token" ∨ pn = "example-project") →
      storage_query_databrowser tv1 cd fd fk parse pn tok p
        = storage_query_databrowser tv2 cd fd fk parse pn tok p ∧
      storage_query_databrowser tv1 cd fd fk parse pn tok p ≠ .httpError 401 ∧
      storage_query_databrowser tv1 cd fd fk parse pn tok p
        = (if cd (buildMongoQuery parse p) = 0 then .httpError 404
           else .ok (200, databrowser_stats_csv_stream fk (fd (buildMongoQuery parse p))))) ∧
    ((tok = "faketoken" ∨ pn = "docs") →
      stats_query_databrowser tv1 cd fd fk parse pn tok p
        = stats_query_databrowser tv2 cd fd fk parse pn tok p ∧
      stats_query_databrowser tv1 cd fd fk parse pn tok p ≠ .httpError 401 ∧
      stats_query_databrowser tv1 cd fd fk parse pn tok p
        = (if cd (buildMongoQuery parse p) = 0 then .httpError 404
           else .ok (200, databrowser_stats_csv_stream fk (fd (buildMongoQuery parse p))))) := by
  constructor
  · intro h
    have h1 := queryDatabrowserCore_skip "example-project" "my-token" tv1 cd fd fk parse pn tok p h
    have h2 := queryDatabrowserCore_skip "example-project" "my-token" tv2 cd fd fk parse pn tok p h
    refine ⟨?_, ?_, h1⟩
    · rw [show storage_query_databrowser tv1 cd fd fk parse pn tok p
            = queryDatabrowserCore "example-project" "my-token" tv1 cd fd fk parse pn tok p from rfl,
          show storage_query_databrowser tv2 cd fd fk parse pn tok p
            = queryDatabrowserCore "example-project" "my-token" tv2 cd fd fk parse pn tok p from rfl,
          h1, h2]
    · rw [show storage_query_databrowser tv1 cd fd fk parse pn tok p
            = queryDatabrowserCore "example-project" "my-token" tv1 cd fd fk parse pn tok p from rfl,
          h1]
      by_cases hc : cd (buildMongoQuery parse p) = 0 <;> simp [hc]
  · intro h
    have h1 := queryDatabrowserCore_skip "docs" "faketoken" tv1 cd fd fk parse pn tok p h
    have h2 := queryDatabrowserCore_skip "docs" "faketoken" tv2 cd fd fk parse pn tok p h
    refine ⟨?_, ?_, h1⟩
    · rw [show stats_query_databrowser tv1 cd fd fk parse pn tok p
            = queryDatabrowserCore "docs" "faketoken" tv1 cd fd fk parse pn tok p from rfl,
          show stats_query_databrowser tv2 cd fd fk parse pn tok p
            = queryDatabrowserCore "docs" "faketoken" tv2 cd fd fk parse pn tok p from rfl,
          h1, h2]
    · rw [show stats_query_databrowser tv1 cd fd fk parse pn tok p
            = queryDatabrowserCore "docs" "faketoken" tv1 cd fd fk parse pn tok p from rfl,
          h1]
      by_cases hc : cd (buildMongoQuery parse p) = 0 <;> simp [hc]

/-- C1 witness: with the placeholder token on a non-documentation
namespace, the handler reaches the store query (here: an empty count,
hence 404, never 401) for both services, whatever the validity oracle
says. -/
theorem c1_placeholder_skips_verification_witness :
    storage_query_databrowser (fun _ => false) (fun _ => 0) (fun _ => []) []
      (fun _ _ => none) "tests" "my-token" emptyParams = .httpError 404 ∧
    stats_query_databrowser (fun _ => false) (fun _ => 0) (fun _ => []) []
      (fun _ _ => none) "tests" "faketoken" emptyParams = .httpError 404 := by
  constructor
  · have h := (c1_placeholder_skips_verification (fun _ => false) (fun _ => true)
      (fun _ => 0) (fun _ => []) [] (fun _ _ => none) "tests" "my-token"
      emptyParams).1 (Or.inl rfl)
    rw [h.2.2]
    simp
  · have h := (c1_placeholder_skips_verification (fun _ => false) (fun _ => true)
      (fun _ => 0) (fun _ => []) [] (fun _ _ => none) "tests" "faketoken"
      emptyParams).2 (Or.inl rfl)
    rw [h.2.2]
    simp

/-- C7: for an authenticated read, a filter whose document count is zero
yields 404 and the exporter output never enters the response (the result
is the same for every `findDocs` oracle); a filter with at least one
match streams the exporter output with status 200. -/
theorem c7_zero_result_not_found
    (tv : String → Bool)
    (cd : List (String × MongoVal) → Nat)
    (fd : List (String × MongoVal) → List StoredDoc)
    (fk : List String) (parse : String → PyDateTime → Option PyDateTime)
    (pn tok : String) (p : QueryParams) (hauth : tv tok = true) :
    (cd (buildMongoQuery parse p) = 0 →
      storage_query_databrowser tv cd fd fk parse pn tok p = .httpError 404) ∧
    (cd (buildMongoQuery parse p) ≠ 0 →
      storage_query_databrowser tv cd fd fk parse pn tok p
        = .ok (200, databrowser_stats_csv_stream fk (fd (buildMongoQuery parse p)))) := by
  have hcore : storage_query_databrowser tv cd fd fk parse pn tok p
      = (if cd (buildMongoQuery parse p) = 0 then .httpError 404
         else .ok (200, databrowser_stats_csv_stream fk (fd (buildMongoQuery parse p)))) := by
    show queryDatabrowserCore "example-project" "my-token" tv cd fd fk parse pn tok p = _
    unfold queryDatabrowserCore
    rw [if_neg]
    intro hc
    have h3 := hc.2.2
    rw [hauth] at h3
    simp at h3
  constructor
  · intro hz
    rw [hcore, if_pos hz]
  · intro hnz
    rw [hcore, if_neg hnz]

/-- C7 witness: with an always-valid token, an empty count gives 404 and
a count of one streams the (empty store's) exporter output with 200. -/
theorem c7_zero_result_not_found_witness :
    storage_query_databrowser (fun _ => true) (fun _ => 0) (fun _ => []) []
      (fun _ _ => none) "tests" "tok" emptyParams = .httpError 404 ∧
    storage_query_databrowser (fun _ => true) (fun _ => 1) (fun _ => []) []
      (fun _ _ => none) "tests" "tok" emptyParams = .ok (200, []) := by
  constructor
  · exact (c7_zero_result_not_found (fun _ => true) (fun _ => 0) (fun _ => [])
      [] (fun _ _ => none) "tests" "tok" emptyParams rfl).1 rfl
  · exact (c7_zero_result_not_found (fun _ => true) (fun _ => 1) (fun _ => [])
      [] (fun _ _ => none) "tests" "tok" emptyParams rfl).2 (by decide)

/-- C6: an update by identifier that modifies zero documents fails with
304 (store unchanged), a delete that removes zero documents fails with
404 (store unchanged), and in both operations a malformed identifier
fails with 500 before any store mutation. -/
theorem c6_no_silent_noop
    (coll : List StoredDoc) (key : String) (data : List (String × Json))
    (tv : String → Bool) (pn statId tok : String) :
    (isValidObjectId key = true → (updateOne coll key data).2 = 0 →
      insert_mongo_db_data_update coll key data = (coll, .httpError 304)) ∧
    (isValidObjectId key = false →
      insert_mongo_db_data_update coll key data = (coll, .httpError 500)) ∧
    (¬(pn = "example-project" ∧ tok = "my-token") → tv tok = true →
      isValidObjectId statId = true → (deleteOne coll statId).2 = 0 →
      delete_statistics_by_index tv coll pn statId tok = (coll, .httpError 404)) ∧
    (¬(pn = "example-project" ∧ tok = "my-token") → tv tok = true →
      isValidObjectId statId = false →
      delete_statistics_by_index tv coll pn statId tok = (coll, .httpError 500)) := by
  refine ⟨?_, ?_, ?_, ?_⟩
  · intro hvalid hzero
    unfold insert_mongo_db_data_update
    rw [hvalid]
    simp only [Bool.not_true]
    rw [if_neg (by simp)]
    rw [if_pos hzero, updateOne_snd_zero hzero]
  · intro hinvalid
    unfold insert_mongo_db_data_update
    rw [hinvalid]
    simp
  · intro hns hvalid hoid hzero
    unfold delete_statistics_by_index
    rw [if_neg hns, hvalid, hoid]
    simp only [Bool.not_true]
    rw [if_neg (by simp), if_neg (by simp)]
    rw [if_pos hzero, deleteOne_snd_zero hzero]
  · intro hns hvalid hoid
    unfold delete_statistics_by_index
    rw [if_neg hns, hvalid, hoid]
    simp

/-- C6 witness: on an empty collection, updating a well-formed but
absent identifier gives 304, deleting it gives 404, and both operations
give 500 on the malformed identifier `"0"`. -/
theorem c6_no_silent_noop_witness :
    insert_mongo_db_data_update [] sampleOid [] = ([], .httpError 304) ∧
    insert_mongo_db_data_update [] "0" [] = ([], .httpError 500) ∧
    delete_statistics_by_index (fun _ => true) [] "tests" sampleOid "tok"
      = ([], .httpError 404) ∧
    delete_statistics_by_index (fun _ => true) [] "tests" "0" "tok"
      = ([], .httpError 500) := by
  refine ⟨?_, ?_, ?_, ?_⟩
  · exact (c6_no_silent_noop [] sampleOid [] (fun _ => true) "tests" sampleOid "tok").1
      (by decide) rfl
  · exact (c6_no_silent_noop [] "0" [] (fun _ => true) "tests" "0" "tok").2.1 (by decide)
  · exact (c6_no_silent_noop [] sampleOid [] (fun _ => true) "tests" sampleOid "tok").2.2.1
      (by decide) rfl (by decide) rfl
  · exact (c6_no_silent_noop [] "0" [] (fun _ => true) "tests" "0" "tok").2.2.2
      (by decide) rfl (by decide)

/-- C2 counterexample: an update payload carrying both a full (and fully
valid) `metadata` object and a dotted `metadata.num_results` key passes
the update-mode schema validation — it is not rejected with 422. -/
theorem c2_counterexample :
    validate_databrowser_stats ["project"] c2Payload .put = true := by decide

/-- C2 (amended): mixing a full `metadata` object with dotted
`metadata.*` keys is not rejected by the update validator: both are
declared properties of the assembled closed schema, so any payload whose
`metadata` object satisfies the full metadata sub-schema and whose
dotted value has the declared type passes validation. -/
theorem c2_mixed_payload_passes
    (facets : List String) (m : List (String × JVal)) (n : Int)
    (h : matchObjSchema metadataSchemaFull (Json.jobj m) = true) :
    validate_databrowser_stats facets
      [("metadata", .jobj m), ("metadata.num_results", .jval (.jint n))]
      .put = true := by
  simp [validate_databrowser_stats, databrowserStatsSchema, matchTop,
    lookupKey, matchProp, matchLeaf, metadataProps, h]

/-- C2 witness: the amended statement at a concrete mixed payload. -/
theorem c2_mixed_payload_passes_witness :
    validate_databrowser_stats ["project"]
      [("metadata", .jobj [("num_results", .jint 5), ("flavour", .jstr "freva"),
         ("uniq_key", .jstr "file"), ("server_status", .jint 200)]),
       ("metadata.num_results", .jval (.jint 3))] .put = true :=
  c2_mixed_payload_passes ["project"] _ 3 (by decide)

/-- C3 counterexample: the dotted payload `{"metadata.date": "1999-01-01"}`
is accepted by the update validator, the update succeeds, and it changes
the stored `metadata.date` from the server-assigned timestamp to the
client string — refuting "never mutated afterwards". -/
theorem c3_counterexample :
    validate_databrowser_stats ["project"] c3Payload .put = true ∧
    (insert_mongo_db_data_update [sampleDoc] sampleOid c3Payload).2
      = StoreOutcome.ok sampleOid ∧
    ((insert_mongo_db_data_update [sampleDoc] sampleOid c3Payload).1.map
        (fun d => lookupKey "date" d.metadata))
      = [some (MVal.mstr "1999-01-01")] ∧
    lookupKey "date" sampleDoc.metadata
      = some (MVal.mdate ⟨2024, 1, 1, 0, 0, 0, 0, true⟩) := by
  refine ⟨by decide, by decide, by decide, by decide⟩

/-- C3 (amended): `metadata.date` is assigned by the server at creation,
overwriting any client-supplied value with the current UTC time; however
it is not immutable afterwards: the update validator accepts a dotted
`metadata.date` payload, whose `$set` changes the stored value. -/
theorem c3_date_assignment
    (facets : List String) (now : PyDateTime) (newId : String)
    (coll : List StoredDoc) (pn : String) (metadata : List (String × JVal))
    (query : List (String × String)) (s : String) (doc : StoredDoc) :
    (pn ≠ "example-project" →
      validate_databrowser_stats facets
        [("metadata", .jobj metadata),
         ("query", .jobj (query.map (fun kv => (kv.1, JVal.jstr kv.2))))]
        .post = true →
      add_databrowser_stats facets now newId coll pn metadata query
        = (coll ++ [⟨newId,
            dictInsert "date" (MVal.mdate now)
              (metadata.map (fun kv => (kv.1, jvalToMVal kv.2))), query⟩],
           .ok newId) ∧
      lookupKey "date"
        (dictInsert "date" (MVal.mdate now)
          (metadata.map (fun kv => (kv.1, jvalToMVal kv.2))))
        = some (MVal.mdate now)) ∧
    (validate_databrowser_stats facets [("metadata.date", .jval (.jstr s))]
        .put = true ∧
     lookupKey "date" ((applySetEntry doc "metadata.date" (.jval (.jstr s))).metadata)
       = some (MVal.mstr s)) := by
  refine ⟨?_, ?_, ?_⟩
  · intro hpn hval
    constructor
    · simp [add_databrowser_stats, hpn, hval, insert_mongo_db_data_insert]
    · exact lookupKey_dictInsert_self _ _ _
  · simp [validate_databrowser_stats, databrowserStatsSchema, matchTop,
      lookupKey, matchProp, matchLeaf, metadataProps]
  · have hd : strDropChars "metadata.date" 9 = "date" := by decide
    simp only [applySetEntry]
    rw [if_neg (by decide), if_neg (by decide), if_pos (by decide)]
    simp only [hd]
    exact lookupKey_dictInsert_self _ _ _

/-- C3 witness: the amended statement at concrete inputs: creation
stores `date := sampleNow` even though the client supplied a `date`
string, and the dotted-date update rewrites the stored date. -/
theorem c3_date_assignment_witness :
    add_databrowser_stats ["project"] sampleNow "newid" [] "tests" c3Metadata
        [("project", "cmip6")]
      = ([⟨"newid",
          dictInsert "date" (MVal.mdate sampleNow)
            (c3Metadata.map (fun kv => (kv.1, jvalToMVal kv.2))),
          [("project", "cmip6")]⟩], .ok "newid") ∧
    lookupKey "date"
      (dictInsert "date" (MVal.mdate sampleNow)
        (c3Metadata.map (fun kv => (kv.1, jvalToMVal kv.2))))
      = some (MVal.mdate sampleNow) ∧
    validate_databrowser_stats ["project"]
      [("metadata.date", .jval (.jstr "1999"))] .put = true ∧
    lookupKey "date"
      ((applySetEntry sampleDoc "metadata.date" (.jval (.jstr "1999"))).metadata)
      = some (MVal.mstr "1999") := by
  have h := c3_date_assignment ["project"] sampleNow "newid" [] "tests"
    c3Metadata [("project", "cmip6")] "1999" sampleDoc
  have h1 := h.1 (by decide) (by decide)
  exact ⟨by simpa using h1.1, h1.2, h.2.1, h.2.2⟩

/-- No facet-filter key of the GET handler collides with the shared
numeric field `metadata.num_results`. -/
theorem queryFilters_keys_ne (p : QueryParams) :
    ∀ kv ∈ queryFiltersList p, ¬("query." ++ kv.1 = "metadata.num_results") := by
  intro kv hm
  have hk : kv.1 = "project" ∨ kv.1 = "product" ∨ kv.1 = "model" ∨
      kv.1 = "variable" ∨ kv.1 = "institute" ∨ kv.1 = "experiment" ∨
      kv.1 = "time_frequency" ∨ kv.1 = "ensemble" ∨ kv.1 = "realm" := by
    simp only [queryFiltersList, List.mem_cons, List.not_mem_nil, or_false] at hm
    rcases hm with h|h|h|h|h|h|h|h|h <;> subst h <;> simp
  rcases hk with h|h|h|h|h|h|h|h|h <;> rw [h] <;> decide

/-- C5: when both `num_results` (with any `results_operator`) and
`server_status` are supplied, the compiled filter binds the shared field
`metadata.num_results` exactly once, to the bare exact-match integer
`server_status`; the comparison predicate is overwritten, never ANDed. -/
theorem c5_server_status_overrides
    (parse : String → PyDateTime → Option PyDateTime) (p : QueryParams)
    (n s : Int) (hn : p.numResults = some n) (hs : p.serverStatus = some s) :
    filterKey "metadata.num_results" (buildMongoQuery parse p)
      = [("metadata.num_results", MongoVal.intVal s)] ∧
    lookupKey "metadata.num_results" (buildMongoQuery parse p)
      = some (MongoVal.intVal s) := by
  obtain ⟨nr, ro, fl, uk, ss, bf, af, pj, pd, mo, inst, ex, va, tf, en, re⟩ := p
  simp only at hn hs
  subst hn
  subst hs
  have e0 : (decide (("metadata.num_results" : String) = "metadata.num_results")) = true := by rfl
  have e1 : (decide (("metadata.flavour" : String) = "metadata.num_results")) = false := by rfl
  have e2 : (decide (("metadata.uniq_key" : String) = "metadata.num_results")) = false := by rfl
  have h0 : filterKey "metadata.num_results"
      ([("metadata.num_results", MongoVal.regex (.rint n) "ix")] ++
        (match fl with
         | some s2 => [("metadata.flavour", MongoVal.regex (.rstr s2) "ix")]
         | none => []) ++
        (match uk with
         | some s2 => [("metadata.uniq_key", MongoVal.regex (.rstr s2) "ix")]
         | none => []))
      = [("metadata.num_results", MongoVal.regex (.rint n) "ix")] := by
    cases fl <;> cases uk <;>
      simp [filterKey, List.filter_append, List.filter_cons, e0, e1, e2]
  have h1 := filterKey_dictInsert_single (by rw [h0]; rfl)
    (MongoVal.cmp ("$" ++ ro) n)
  have h2 := filterKey_dictInsert_single (by rw [h1]; rfl) (MongoVal.intVal s)
  have hfilter : filterKey "metadata.num_results"
      (buildMongoQuery parse ⟨some n, ro, fl, uk, some s, bf, af, pj, pd, mo,
        inst, ex, va, tf, en, re⟩)
      = [("metadata.num_results", MongoVal.intVal s)] := by
    simp only [buildMongoQuery]
    rw [filterKey_applyFacetFilters (queryFilters_keys_ne _)]
    by_cases hdq : (get_date_query parse bf af).isEmpty
    · rw [if_pos hdq]
      exact h2
    · rw [if_neg hdq,
        filterKey_dictInsert_ne (by decide : ¬("metadata.date" : String) = "metadata.num_results")]
      exact h2
  exact ⟨hfilter, lookupKey_eq_of_filterKey_single hfilter⟩

/-- C5 witness: with `num_results = 3` (default operator) and
`server_status = 7`, the compiled filter's only binding of
`metadata.num_results` is the bare integer 7. -/
theorem c5_server_status_overrides_witness :
    filterKey "metadata.num_results" (buildMongoQuery (fun _ _ => none) c5Params)
      = [("metadata.num_results", MongoVal.intVal 7)] ∧
    lookupKey "metadata.num_results" (buildMongoQuery (fun _ _ => none) c5Params)
      = some (MongoVal.intVal 7) :=
  c5_server_status_overrides (fun _ _ => none) c5Params 3 7 rfl rfl

/-- C9: the CSV exporter emits nothing for an empty match sequence; for
a non-empty sequence of validator-shaped documents it emits exactly one
header line derived from the first document (`id`, its metadata keys in
insertion order, then every facet name) followed by exactly one line per
document (identifier, metadata values with the timestamp rendered as
ISO-8601 text, then each facet's query value or the empty string). -/
theorem c9_csv_exporter (fk : List String) (d : StoredDoc)
    (rest : List StoredDoc) (hwf : ExporterWF fk (d :: rest)) :
    databrowser_stats_csv_stream fk [] = [] ∧
    databrowser_stats_csv_stream fk (d :: rest)
      = specCsvHeader fk d :: (d :: rest).map (fun doc => specCsvRow fk doc) := by
  obtain ⟨hfk, hdocs⟩ := hwf
  obtain ⟨hnd, hid, hfac, hdate⟩ := hdocs d (by simp)
  constructor
  · rfl
  · show csvLines fk [] (d :: rest) = _
    simp only [csvLines]
    have hemp : ([] : List String).isEmpty = true := rfl
    rw [if_pos hemp, csvHeader_eq_spec hnd hid,
      csvRow_eq_spec hfk ⟨hnd, hid, hfac, hdate⟩, List.map_cons]
    congr 1
    congr 1
    apply csvLines_eq_rows hfk
      (fun doc hm => hdocs doc (List.mem_cons_of_mem _ hm))
    rw [keysOf_resultRow hnd hid]
    rfl

/-- C9 witness: the exporter applied to the one-document store. -/
theorem c9_csv_exporter_witness :
    databrowser_stats_csv_stream ["project"] [] = [] ∧
    databrowser_stats_csv_stream ["project"] [sampleDoc]
      = specCsvHeader ["project"] sampleDoc ::
        List.map (fun doc => specCsvRow ["project"] doc) [sampleDoc] := by
  apply c9_csv_exporter ["project"] sampleDoc []
  constructor
  · decide
  · intro doc hm
    rw [List.mem_singleton] at hm
    subst hm
    refine ⟨by decide, by decide, ?_, ?_⟩
    · intro f hf
      rw [List.mem_singleton] at hf
      subst hf
      exact ⟨by decide, by decide⟩
    · intro kv hm d hv
      simp only [sampleDoc, List.mem_cons, List.not_mem_nil, or_false] at hm
      rcases hm with h|h|h|h|h <;> subst h
      · simp at hv
      · simp at hv
      · simp at hv
      · simp at hv
      · rfl
